import Mathlib

/-!
Shallow embedding of the SFM core graph-construction logic (src/core.py).

Tensor entries are modelled as rationals; the TensorFlow graph nodes are
modelled by the values they compute from a given assignment of the
learnable variables (the `Env` structure below).  Graph-construction-time
exceptions and run-time fatal checks are modelled with `Except String`.
The dense, non-relational input path is the one exercised by the claims;
sparse inputs are carried as a coordinate list plus a shape and multiply
through their densification, matching tf.sparse_tensor_dense_matmul.
-/

namespace SFM

/-- Matrices as lists of rows over the rationals. -/
abbrev Mat := List (List ℚ)

/-- Dot product of two rows (zip-with-multiply, then sum). -/
def dotProd (a b : List ℚ) : ℚ := (List.zipWith (· * ·) a b).sum

/-- Column j of a matrix, padding missing entries with 0. -/
def matCol (M : Mat) (j : Nat) : List ℚ := M.map (fun r => r.getD j 0)

/-- Number of columns, read off the first row. -/
def numCols (M : Mat) : Nat := (M.headD []).length

/-- Dense matrix product, modelling tf.matmul. -/
def matMul (A B : Mat) : Mat :=
  A.map (fun row => (List.range (numCols B)).map (fun j => dotProd row (matCol B j)))

/-- Entrywise sum of two matrices (same shape). -/
def matAdd (A B : Mat) : Mat := List.zipWith (List.zipWith (· + ·)) A B

/-- Sum of a list of same-shape matrices; models tf.reduce_sum over the
stacking axis of a nonempty list of tensors. -/
def matSum : List Mat → Mat
  | [] => []
  | x :: xs => xs.foldl matAdd x

/-- Entrywise (Hadamard) product of two matrices. -/
def hadamard (A B : Mat) : Mat := List.zipWith (List.zipWith (· * ·)) A B

/-- Product across a nonempty list of stacked matrices; models
tf.reduce_prod over the packing axis.  A view always packs at least one
mode, so the empty case is never reached from the claims. -/
def hadamardList : List Mat → Mat
  | [] => []
  | x :: xs => xs.foldl hadamard x

/-- Broadcast-add a row vector to every row of a matrix; models adding a
[1, r] bias tensor to a [batch, r] tensor. -/
def addRowBias (M : Mat) (bias : List ℚ) : Mat :=
  M.map (fun row => List.zipWith (· + ·) row bias)

/-- Concatenate two matrices along the column axis; models
tf.concat(1, [A, B]). -/
def concatCols (A B : Mat) : Mat := List.zipWith (· ++ ·) A B

/-- Column j of Phi reshaped to an [r, 1] matrix; models
tf.reshape(Phi[:, j], (r, 1)). -/
def colAsMat (M : Mat) (j : Nat) : Mat := M.map (fun r => [r.getD j 0])

/-- Absolute value as the source computes it elementwise via tf.abs. -/
def qabs (q : ℚ) : ℚ := if q < 0 then -q else q

/-- Sum of absolute values of a flat list of entries (tf.reduce_sum of
tf.abs). -/
def sumAbs (l : List ℚ) : ℚ := (l.map qabs).sum

/-- Sum of squares of a flat list of entries. -/
def sumSq (l : List ℚ) : ℚ := (l.map (fun x => x * x)).sum

/-- Half the sum of squares, the value computed by tf.nn.l2_loss. -/
def l2_loss (l : List ℚ) : ℚ := sumSq l / 2

/-- Flatten a matrix to the list of its entries. -/
def matFlatten (M : Mat) : List ℚ := M.flatten

/-- Sparse matrix in COO form: coordinate/value pairs plus a dense shape,
modelling the tf.SparseTensor assembled from the raw placeholders. -/
abbrev SparseMat := List ((Nat × Nat) × ℚ) × (Nat × Nat)

/-- Densification of a COO sparse matrix (duplicate coordinates sum). -/
def densify (s : SparseMat) : Mat :=
  (List.range s.2.1).map (fun i =>
    (List.range s.2.2).map (fun j =>
      ((s.1.filter (fun e => e.1.1 = i ∧ e.1.2 = j)).map (fun e => e.2)).sum))

/-- A mode input tensor: either a dense feature matrix or a sparse one. -/
inductive TfTensor where
  | dense : Mat → TfTensor
  | sparse : SparseMat → TfTensor

/-- Model of matmul_wrapper (src/core.py lines 439-458): dispatch strictly
on the declared representation tag; dense gives tf.matmul, sparse gives
tf.sparse_tensor_dense_matmul, any other tag raises
NameError("Unknown input type in matmul_wrapper").  A tag/operand mismatch
is the TensorFlow-level type error the library itself would raise. -/
def matmul_wrapper (A : TfTensor) (B : Mat) (optype : String) : Except String Mat :=
  if optype = "dense" then
    match A with
    | .dense M => .ok (matMul M B)
    | .sparse _ => .error "TypeError: tf.matmul applied to a SparseTensor"
  else if optype = "sparse" then
    match A with
    | .sparse S => .ok (matMul (densify S) B)
    | .dense _ => .error "TypeError: sparse_tensor_dense_matmul applied to a dense tensor"
  else .error "Unknown input type in matmul_wrapper"

/-- Constructor configuration of SFMCore (src/core.py __init__): the view
specification (1-indexed mode ids), the two ranks, the full-order
trainability flag, the input representation tag, the regularization norm
tag and strength.  Fields that the modelled computations never read
(output_range, loss_function, optimizer, init_scaling) are omitted. -/
structure Config where
  view_list : List (List Nat)
  co_rank : Nat
  view_rank : Nat
  isFullOrder : Bool
  input_type : String
  reg_type : String
  reg : ℚ

/-- n_modes = max over all mode ids in the view specification
(src/core.py line 104; Python max raises on an empty list, and the claims
only involve nonempty specifications, so the 0 default is never the
relevant case). -/
def Config.n_modes (c : Config) : Nat := (c.view_list.flatten).foldr max 0

/-- n_views = number of views (src/core.py line 105). -/
def Config.n_views (c : Config) : Nat := c.view_list.length

/-- Total embedding width r = co_rank + view_rank (src/core.py line 123). -/
def Config.r (c : Config) : Nat := c.co_rank + c.view_rank

/-- Model of the iteration order of Python set(modes) as used by the
per-view loops: duplicates removed, first occurrence kept.  Every use in
the source is order-insensitive (sums and per-slot assignments). -/
def pySet (l : List Nat) : List Nat :=
  l.foldl (fun acc x => if x ∈ acc then acc else acc ++ [x]) []

/-- The (v, m) pairs visited by the loops `for i, modes in
enumerate(self.view_list): v = i + 1; for m in set(modes)` starting at
view index k (both _init_learnable_params, lines 158-160, and
_init_regular, lines 257-259, iterate exactly this sequence). -/
def viewPairsAux : Nat → List (List Nat) → List (Nat × Nat)
  | _, [] => []
  | k, ms :: rest => ((pySet ms).map (fun m => (k + 1, m))) ++ viewPairsAux (k + 1) rest

/-- The full (view, mode) visit sequence of the per-view loops. -/
def viewPairs (cfg : Config) : List (Nat × Nat) := viewPairsAux 0 cfg.view_list

/-! ## Parameter layout builder (_init_learnable_params, lines 119-178) -/

/-- Result of _init_learnable_params: the list of variable names registered
in the graph (in creation order), the warnings printed by the two bare
except handlers, and the shapes sitting in the Python lists self.W and
self.Bias (None slots stay none). -/
structure ParamsState where
  createdVars : List String
  warnings : List String
  Wshape : List (List (Option (Nat × Nat)))
  BiasShape : List (List (Option (Nat × Nat)))
deriving DecidableEq

/-- Update entry (i, j) of a nested list. -/
def set2 {α : Type} (xss : List (List α)) (i j : Nat) (a : α) : List (List α) :=
  xss.set i ((xss.getD i []).set j a)

/-- The variable scope entered for a (view, mode) pair, line 161:
tf.variable_scope("view_" + str(v) + "_mode_" + str(m)).  Note the scope
name contains the view index, so two distinct views never share a scope. -/
def scopeName (v m : Nat) : String :=
  "view_" ++ toString v ++ "_mode_" ++ toString m

/-- Model of tf.get_variable under a scope in a fresh graph: refuses to
create a full name that already exists (which is what the try/except
blocks of lines 162-178 are there to catch). -/
def getVariable (created : List String) (fullName : String) : Except String (List String) :=
  if fullName ∈ created then .error "ValueError: variable already exists"
  else .ok (created ++ [fullName])

/-- One iteration of the view-specific creation loop of lines 158-178 for a
pair (v, m).

The bias branch (lines 162-167): tf.get_variable("bias", ...) inside the
pair scope; on a scope conflict the except prints the sharing warning and
the slot self.Bias[v][m-1] keeps its previous value.

The embedding branch (lines 168-178): the guarded body evaluates
tf.contrib.layers.variance_scaling_initializer(factor=init_scaling) as an
argument of tf.get_variable.  The name init_scaling is bare (the method
only binds self, and the module has no global of that name), so evaluating
the arguments raises NameError before get_variable runs; the bare except
catches it and prints "mode m shared in view v".  Hence when view_rank > 0
the attempt always warns and creates nothing, and when view_rank = 0 the
guarded body does nothing. -/
def pairStepParams (cfg : Config) (st : ParamsState) (pm : Nat × Nat) : ParamsState :=
  let sc := scopeName pm.1 pm.2
  let st1 :=
    match getVariable st.createdVars (sc ++ "/bias") with
    | .ok created =>
        { st with createdVars := created,
                  BiasShape := set2 st.BiasShape pm.1 (pm.2 - 1) (some (1, cfg.r)) }
    | .error _ =>
        { st with warnings := st.warnings ++
            ["bias mode " ++ toString pm.2 ++ " shared in view " ++ toString pm.1] }
  if cfg.view_rank > 0 then
    { st1 with warnings := st1.warnings ++
        ["mode " ++ toString pm.2 ++ " shared in view " ++ toString pm.1] }
  else st1

/-- Model of _init_learnable_params (lines 119-178).  A fresh graph is
assumed (build_graph opens a new tf.Graph), so the fixed-name creations
(Phi at line 137, the global bias b at line 144, and the per-mode co
tables and scale vectors at lines 146-154, whose scopes co_mode_k are
pairwise distinct) cannot conflict and are recorded directly; the
(view, mode) loop then runs pairStepParams over the viewPairs sequence. -/
def initLearnableParams (cfg : Config) (nfl : List Nat) : ParamsState :=
  let n := cfg.n_modes
  let st0 : ParamsState :=
    { createdVars := ["embedding_phi", "b"],
      warnings := [],
      Wshape := List.replicate (cfg.n_views + 1) (List.replicate n none),
      BiasShape := List.replicate (cfg.n_views + 1) (List.replicate n none) }
  let st1 := (List.range n).foldl (fun st m =>
    { st with
      createdVars := st.createdVars ++
        ["co_mode_" ++ toString (m + 1) ++ "/embedding_init",
         "co_mode_" ++ toString (m + 1) ++ "/layer_norm_S"],
      Wshape := set2 st.Wshape 0 m (some (nfl.getD m 0, cfg.co_rank)) }) st0
  (viewPairs cfg).foldl (pairStepParams cfg) st1

/-! ## Regularization accumulator (_regularizer_func and _init_regular,
lines 240-282) -/

/-- Model of _regularizer_func (lines 240-245) on the flattened entries of
a tensor: L1 gives the sum of absolute values, anything else gives
tf.nn.l2_loss, i.e. half the sum of squares. -/
def regularizer_func (reg_type : String) (w : List ℚ) : ℚ :=
  if reg_type = "L1" then sumAbs w else l2_loss w

/-- Values of the learnable tensors of one built graph.  W0 holds the
per-mode shared tables self.W[0][·]; Wv v m holds self.W[v][m] for v >= 1
(m is the 0-based Python list index, i.e. mode id minus one) and is none
when the slot still holds Python None; Bias likewise models
self.Bias[v][·].  trainX holds the per-mode input tensors bound at run
time. -/
structure Env where
  trainX : List TfTensor
  W0 : List Mat
  Wv : Nat → Nat → Option Mat
  Bias : Nat → Nat → Option Mat
  Phi : Mat

/-- One iteration of the (view, mode) loop of _init_regular (lines
257-274), carrying the pair (regularization, norm) of Python locals.  The
bias try (lines 260-263) recomputes norm only if the tensor exists,
otherwise the caught exception leaves norm at its previous value; the
unconditional line 266 then adds norm either way.  When view_rank > 0 the
embedding try (lines 267-273) behaves the same, followed by the
unconditional line 274. -/
def regPairStep (cfg : Config) (env : Env) (st : ℚ × ℚ) (pm : Nat × Nat) : ℚ × ℚ :=
  let norm1 :=
    match env.Bias pm.1 (pm.2 - 1) with
    | some B => regularizer_func cfg.reg_type (matFlatten B)
    | none => st.2
  let acc1 := st.1 + norm1
  if cfg.view_rank > 0 then
    match env.Wv pm.1 (pm.2 - 1) with
    | some W => (acc1 + regularizer_func cfg.reg_type (matFlatten W),
                 regularizer_func cfg.reg_type (matFlatten W))
    | none => (acc1 + norm1, norm1)
  else (acc1, norm1)

/-- One iteration of the shared-table loop of _init_regular (lines
252-256): norm is recomputed from self.W[0][m] and added. -/
def regModeStep (cfg : Config) (env : Env) (st : ℚ × ℚ) (m : Nat) : ℚ × ℚ :=
  (st.1 + regularizer_func cfg.reg_type (matFlatten (env.W0.getD m [])),
   regularizer_func cfg.reg_type (matFlatten (env.W0.getD m [])))

/-- Model of _init_regular (lines 247-282): the per-mode loop over the
shared tables, the (view, mode) loop over viewPairs, then the mixing
matrix.  The per-column Phi norms of lines 276-278 are computed only as
summary nodes and never added to the accumulator, so they do not appear in
the value; lines 279-281 add the whole-matrix norm. -/
def init_regular (cfg : Config) (env : Env) : ℚ :=
  ((viewPairs cfg).foldl (regPairStep cfg env)
    ((List.range cfg.n_modes).foldl (regModeStep cfg env) (0, 0))).1
  + regularizer_func cfg.reg_type (matFlatten env.Phi)

/-- Modelled from the words of spec section 4.5 for comparison with
init_regular: the sum of the configured norm over every shared mode table,
every materialized (view, mode) bias tensor, every materialized
(view, mode) embedding table, and the whole mixing matrix, each counted
exactly once and absent tensors contributing zero. -/
def specRegularSum (cfg : Config) (env : Env) : ℚ :=
  ((List.range cfg.n_modes).map
      (fun m => regularizer_func cfg.reg_type (matFlatten (env.W0.getD m [])))).sum
  + ((viewPairs cfg).map (fun pm =>
      (match env.Bias pm.1 (pm.2 - 1) with
       | some B => regularizer_func cfg.reg_type (matFlatten B)
       | none => 0)
      + (if cfg.view_rank > 0 then
          match env.Wv pm.1 (pm.2 - 1) with
          | some W => regularizer_func cfg.reg_type (matFlatten W)
          | none => 0
         else 0))).sum
  + regularizer_func cfg.reg_type (matFlatten env.Phi)

/-- Modelled from the words of claim C5 for comparison with init_regular:
specRegularSum with the per-column norms of the mixing matrix also
included. -/
def specRegularSumWithCols (cfg : Config) (env : Env) : ℚ :=
  specRegularSum cfg env
  + ((List.range cfg.n_views).map
      (fun v => regularizer_func cfg.reg_type (matCol env.Phi v))).sum

/-- What one (view, mode) pair actually contributes to the accumulated
regularization when its bias tensor materialized: the bias norm, plus (for
view_rank > 0) either the view-table norm if that table materialized or
the bias norm a second time if it did not (the stale local re-added by
line 274). -/
def pairContrib (cfg : Config) (env : Env) (pm : Nat × Nat) : ℚ :=
  let bn := regularizer_func cfg.reg_type (matFlatten ((env.Bias pm.1 (pm.2 - 1)).getD []))
  if cfg.view_rank > 0 then
    match env.Wv pm.1 (pm.2 - 1) with
    | some W => bn + regularizer_func cfg.reg_type (matFlatten W)
    | none => bn + bn
  else bn

/-! ## Interaction assembler (_init_main_block and _view_mode_embedding,
lines 340-403) -/

/-- Model of _view_mode_embedding (lines 397-403) on the non-relational
path: matmul_wrapper(self.train_x[m], self.W[v][m], self.input_type),
where m is the 0-based list index.  A None in the W slot makes the
TensorFlow op constructor raise. -/
def view_mode_embedding (cfg : Config) (env : Env) (v m : Nat) : Except String Mat :=
  match (if v = 0 then env.W0[m]? else env.Wv v m) with
  | some W => matmul_wrapper (env.trainX.getD m (.dense [])) W cfg.input_type
  | none => .error "TypeError: matmul applied to None"

/-- The per-view inner loop of _init_main_block (lines 360-367): for m in
modes (duplicates included, in order), build the bias-added embedding and
assign it into slot m-1 of XW_list, so a repeated mode id overwrites its
own slot.  With view_rank > 0 the slot gets the concatenation of the
cached shared embedding and the view-specific one; with view_rank = 0 it
gets the cached shared embedding; line 367 then adds self.Bias[v][m-1]. -/
def viewFactorsFold (cfg : Config) (env : Env) (xwCache : List Mat) (v : Nat) :
    List Nat → List (Option Mat) → Except String (List (Option Mat))
  | [], xwList => .ok xwList
  | m :: rest, xwList =>
    match (if cfg.view_rank > 0 then
            match view_mode_embedding cfg env v (m - 1) with
            | .ok xw => .ok (concatCols (xwCache.getD (m - 1) []) xw)
            | .error e => .error e
           else .ok (xwCache.getD (m - 1) []) : Except String Mat) with
    | .error e => .error e
    | .ok base =>
      match env.Bias v (m - 1) with
      | some B =>
          viewFactorsFold cfg env xwCache v rest
            (xwList.set (m - 1) (some (addRowBias base (B.getD 0 []))))
      | none => .error "TypeError: adding None bias"

/-- The per-view bodies of _init_main_block (lines 355-386), producing the
list of per-view contribution tensors view_contribution[i] =
matmul(prod_embedding[i], reshape(Phi[:, i], (r, 1))): pack the non-None
slots of XW_list, reduce by elementwise product, project onto column i of
the mixing matrix. -/
def viewContribs (cfg : Config) (env : Env) (xwCache : List Mat) :
    Nat → List (List Nat) → Except String (List Mat)
  | _, [] => .ok []
  | i, modes :: rest =>
    match viewFactorsFold cfg env xwCache (i + 1) modes
            (List.replicate cfg.n_modes none) with
    | .error e => .error e
    | .ok xwList =>
      match viewContribs cfg env xwCache (i + 1) rest with
      | .error e => .error e
      | .ok cs => .ok (matMul (hadamardList (xwList.filterMap id)) (colAsMat env.Phi i) :: cs)

/-- Error-propagating map used to build the XW cache, one entry per mode
(the loop of lines 351-352). -/
def mapME (f : Nat → Except String Mat) : List Nat → Except String (List Mat)
  | [] => .ok []
  | x :: xs =>
    match f x with
    | .error e => .error e
    | .ok y =>
      match mapME f xs with
      | .error e => .error e
      | .ok ys => .ok (y :: ys)

/-- Model of the output computation of _init_main_block (lines 340-389):
XW_cache[m] holds the shared embedding of every mode (line 352), the
views are assembled in order, and line 345 together with line 388 makes
self.outputs = 0 + reduce_sum(view_contribution over the view axis).  The
global bias self.b is created at line 144 but the line adding it to the
output (line 344) is commented out, so it never enters the value. -/
def mainBlock (cfg : Config) (env : Env) : Except String Mat :=
  match mapME (fun m => view_mode_embedding cfg env 0 m) (List.range cfg.n_modes) with
  | .error e => .error e
  | .ok xwCache =>
    match viewContribs cfg env xwCache 0 cfg.view_list with
    | .error e => .error e
    | .ok contribs => .ok (matSum contribs)

/-- Add a scalar to every entry of a matrix (broadcast). -/
def addScalarMat (q : ℚ) (M : Mat) : Mat := M.map (fun row => row.map (fun x => q + x))

/-- Modelled from the words of claim C1 for comparison with mainBlock: the
forward output as the value of the global bias variable plus the sum over
views of the per-view scalar contributions. -/
def specOutputsClaim (cfg : Config) (env : Env) (b : ℚ) : Except String Mat :=
  match mainBlock cfg env with
  | .error e => .error e
  | .ok M => .ok (addScalarMat b M)

/-! ## Objective and stability guard (_init_loss lines 335-338,
_init_target lines 406-415, trainer wiring line 433) -/

/-- A run-time scalar that is either a finite value or a non-finite float
(NaN or an infinity).  The embedding does not model float rounding; it
only tracks finiteness, which is what the guard dispatches on. -/
inductive FV where
  | fin : ℚ → FV
  | nonfin : FV
deriving DecidableEq

/-- Addition propagating non-finiteness. -/
def fvAdd : FV → FV → FV
  | .fin a, .fin b => .fin (a + b)
  | _, _ => .nonfin

/-- Multiplication propagating non-finiteness (Inf * 0 is NaN, so any
non-finite operand poisons the result). -/
def fvMul : FV → FV → FV
  | .fin a, .fin b => .fin (a * b)
  | _, _ => .nonfin

/-- Sum of a list of run-time scalars. -/
def fvSum (l : List FV) : FV := l.foldr fvAdd (.fin 0)

/-- Model of tf.reduce_mean over the per-example loss vector (line 337);
the mean of an empty tensor is NaN. -/
def fvMean (l : List FV) : FV :=
  if l.length = 0 then .nonfin
  else
    match fvSum l with
    | .fin s => .fin (s / l.length)
    | .nonfin => .nonfin

/-- Model of tf.verify_tensor_all_finite with the message of line 414: a
finite scalar passes through, a non-finite one is a fatal error. -/
def verify_tensor_all_finite (t : FV) : Except String FV :=
  match t with
  | .fin q => .ok (.fin q)
  | .nonfin => .error "NaN or Inf in target value"

/-- Model of _init_target (lines 406-415): target = reduced_loss +
reg * regularization, then the finiteness guard producing checked_target. -/
def init_target (reduced_loss : FV) (reg : ℚ) (regularization : FV) : Except String FV :=
  verify_tensor_all_finite (fvAdd reduced_loss (fvMul (.fin reg) regularization))

/-- The optimizer step node. -/
inductive TrainOp where
  | minimize : FV → TrainOp
deriving DecidableEq

/-- Model of the trainer wiring (line 433): the optimizer minimizes
checked_target, i.e. it only ever receives a value that passed the guard;
reduced_loss is the mean of the per-example losses (line 337). -/
def trainer (losses : List FV) (reg : ℚ) (regularization : FV) : Except String TrainOp :=
  match init_target (fvMean losses) reg regularization with
  | .error e => .error e
  | .ok t => .ok (.minimize t)

/-! ## Graph orchestrator (build_graph, lines 417-437) -/

/-- Model of the build_graph entry point: its first statement is
assert self.n_feature_list is not None (line 419); only after that does it
open the graph and allocate the learnable parameters.  The remaining
orchestration (input binding, main block, target, optimizer wiring) is
modelled by the definitions above and adds no further precondition. -/
def build_graph (cfg : Config) (n_feature_list : Option (List Nat)) :
    Except String ParamsState :=
  match n_feature_list with
  | none => .error "AssertionError: n_feature_list is None"
  | some nfl => .ok (initLearnableParams cfg nfl)

/-! ## Concrete configurations used to settle the claims -/

/-- Single mode, single view, view_rank 0: the linear-projection case of
claim C1. -/
def cfgC1 : Config := ⟨[[1]], 1, 0, false, "dense", "L2", 0⟩

/-- Values for cfgC1: batch 1, scalar feature 1, shared table [[1]], the
(view 1, mode 1) bias 0, Phi = [[1]]. -/
def envC1 : Env :=
  ⟨[.dense [[1]]], [[[1]]], fun _ _ => none,
   fun v m => if v = 1 ∧ m = 0 then some [[0]] else none, [[1]]⟩

/-- Two modes in one view with view_rank 1: the failing input of claim C2. -/
def cfgC2 : Config := ⟨[[1, 2]], 1, 1, true, "dense", "L2", 0⟩

/-- The sharing configuration of claim C3: view spec [(1,2),(1,3)] with
view_rank 1. -/
def cfgC3 : Config := ⟨[[1, 2], [1, 3]], 1, 1, true, "dense", "L2", 0⟩

/-- One view, one mode, view_rank 1, L1 norm: the configuration of claim
C4. -/
def cfgC4 : Config := ⟨[[1]], 1, 1, false, "dense", "L1", 0⟩

/-- Values for cfgC4: shared table of norm 0, (1,1) bias of norm 5, no
view table materialized, Phi of norm 0. -/
def envC4 : Env :=
  ⟨[], [[[0]]], fun _ _ => none,
   fun v m => if v = 1 ∧ m = 0 then some [[5]] else none, [[0]]⟩

/-- One view, one mode, view_rank 0, L1 norm: the configuration of claim
C5. -/
def cfgC5 : Config := ⟨[[1]], 1, 0, false, "dense", "L1", 0⟩

/-- Values for cfgC5: shared table of norm 2, (1,1) bias of norm 3, Phi a
single column of norm 4. -/
def envC5 : Env :=
  ⟨[], [[[2]]], fun _ _ => none,
   fun v m => if v = 1 ∧ m = 0 then some [[3]] else none, [[4]]⟩

/-- A view listing mode 1 twice, view_rank 0: the duplicated-mode
configuration of claim C10. -/
def cfgC10 : Config := ⟨[[1, 1, 2]], 2, 0, false, "dense", "L2", 0⟩

/-- Values for cfgC10: biases present for view 1. -/
def envC10 : Env :=
  ⟨[.dense [[1, 0], [0, 1]], .dense [[1, 1], [1, 1]]],
   [[[1], [2]], [[3], [4]]], fun _ _ => none,
   fun v _ => if v = 1 then some [[1]] else none, [[2]]⟩

/-! ## Claim theorems -/

/-- C6: the regularizer returns the sum of absolute values of the entries
when reg_type is L1, and half the sum of squares for any other reg_type;
on the values [-2, 3] this yields 5 under L1 and 13/2 under the L2
default. -/
theorem C6_regularizer :
    (∀ w : List ℚ, regularizer_func "L1" w = (w.map qabs).sum)
    ∧ (∀ rt : String, rt ≠ "L1" →
        ∀ w : List ℚ, regularizer_func rt w = (w.map (fun x => x * x)).sum / 2)
    ∧ regularizer_func "L1" [-2, 3] = 5
    ∧ regularizer_func "L2" [-2, 3] = 13 / 2 := by
  refine ⟨fun w => rfl, fun rt h w => ?_, ?_, ?_⟩
  · simp [regularizer_func, h, l2_loss, sumSq]
  · norm_num [regularizer_func, sumAbs, qabs]
  · norm_num [regularizer_func, show ("L2" : String) ≠ "L1" by decide, l2_loss, sumSq]

/-- Witness for C6: the non-L1 branch evaluated at reg_type maxNorm on
[-2, 3]. -/
theorem C6_witness : regularizer_func "maxNorm" [-2, 3] = 13 / 2 := by
  have h := C6_regularizer.2.1 "maxNorm" (by decide) [-2, 3]
  rw [h]; norm_num

/-- C8: matmul_wrapper returns the dense product for the dense tag, the
sparse-times-dense product for the sparse tag, and raises the fatal
UnknownInputType error for every other tag value. -/
theorem C8_matmul_dispatch (A : Mat) (S : SparseMat) (B : Mat) (t : String) :
    matmul_wrapper (.dense A) B "dense" = .ok (matMul A B)
    ∧ matmul_wrapper (.sparse S) B "sparse" = .ok (matMul (densify S) B)
    ∧ (t ≠ "dense" → t ≠ "sparse" →
        ∀ X : TfTensor,
          matmul_wrapper X B t = .error "Unknown input type in matmul_wrapper") := by
  refine ⟨rfl, rfl, fun h1 h2 X => ?_⟩
  simp [matmul_wrapper, h1, h2]

/-- Witness for C8: an unknown tag on a concrete dense operand. -/
theorem C8_witness :
    matmul_wrapper (.dense [[2]]) [[1]] "relational"
      = .error "Unknown input type in matmul_wrapper" :=
  (C8_matmul_dispatch [[0]] ⟨[], (0, 0)⟩ [[1]] "relational").2.2
    (by decide) (by decide) (.dense [[2]])

/-- C9: calling build_graph while n_feature_list is unset fails
immediately with the assertion error and never returns an allocated
parameter layout. -/
theorem C9_build_requires_features (cfg : Config) :
    build_graph cfg none = .error "AssertionError: n_feature_list is None"
    ∧ ∀ ps : ParamsState, build_graph cfg none ≠ .ok ps :=
  ⟨rfl, fun _ h => Except.noConfusion h⟩

/-- C7: the training objective handed to the optimizer is exactly
mean(per-example losses) + reg * regularization when that scalar is
finite, and a non-finite value is a fatal error with the descriptive
message instead of being passed on. -/
theorem C7_objective_guard (losses : List FV) (r : ℚ) (R : FV) :
    (∀ q : ℚ, fvAdd (fvMean losses) (fvMul (.fin r) R) = .fin q →
        trainer losses r R = .ok (.minimize (.fin q)))
    ∧ (fvAdd (fvMean losses) (fvMul (.fin r) R) = .nonfin →
        trainer losses r R = .error "NaN or Inf in target value") := by
  constructor
  · intro q hq
    simp [trainer, init_target, verify_tensor_all_finite, hq]
  · intro hq
    simp [trainer, init_target, verify_tensor_all_finite, hq]

/-- Witness for C7: losses [1, 3], reg strength 2, regularization 5 give
the finite objective mean([1,3]) + 2 * 5 = 12, which reaches the
optimizer. -/
theorem C7_witness :
    trainer [FV.fin 1, FV.fin 3] 2 (FV.fin 5) = .ok (.minimize (.fin 12)) := by
  refine (C7_objective_guard [FV.fin 1, FV.fin 3] 2 (FV.fin 5)).1 12 ?_
  norm_num [fvMean, fvSum, fvAdd, fvMul]

/-- C2 (code bug): with view_rank = 1 and view spec [(1,2)], the view-1
slots of self.W stay None for both modes (no [feature_dim, view_rank]
table is created), a sharing warning is printed for every pair even
though nothing is shared, and no view_*_mode_*/embedding_init variable
ever enters the graph -- the bare name init_scaling at line 173 raises
NameError inside the bare except.  The biases of the same pairs are
created normally, showing the loop itself ran. -/
theorem C2_no_view_tables_created :
    (initLearnableParams cfgC2 [2, 3]).Wshape.getD 1 [] = [none, none]
    ∧ (initLearnableParams cfgC2 [2, 3]).BiasShape.getD 1 []
        = [some (1, 2), some (1, 2)]
    ∧ (initLearnableParams cfgC2 [2, 3]).warnings
        = ["mode 1 shared in view 1", "mode 2 shared in view 1"]
    ∧ (initLearnableParams cfgC2 [2, 3]).createdVars.count
        "view_1_mode_1/embedding_init" = 0 := by
  decide

/-- Counterexample for C3: with view spec [(1,2),(1,3)] and view_rank 1,
mode 1's view-specific embedding table is NOT created exactly once -- it
is never created at all. -/
theorem C3_counterexample :
    ¬ ((initLearnableParams cfgC3 [1, 1, 1]).createdVars.count
        "view_1_mode_1/embedding_init" = 1) := by
  decide

/-- C3 amended: with view spec [(1,2),(1,3)] and view_rank 1, no
(view, mode) embedding table is created for any pair; every one of the
four creation attempts logs a sharing warning (the caught NameError) and
execution continues, with the created tensors being exactly Phi, the
global bias, the per-mode shared tables and scale vectors, and one bias
per (view, mode) pair. -/
theorem C3_no_sharing_skip :
    (initLearnableParams cfgC3 [1, 1, 1]).createdVars
      = ["embedding_phi", "b",
         "co_mode_1/embedding_init", "co_mode_1/layer_norm_S",
         "co_mode_2/embedding_init", "co_mode_2/layer_norm_S",
         "co_mode_3/embedding_init", "co_mode_3/layer_norm_S",
         "view_1_mode_1/bias", "view_1_mode_2/bias",
         "view_2_mode_1/bias", "view_2_mode_3/bias"]
    ∧ (initLearnableParams cfgC3 [1, 1, 1]).warnings
      = ["mode 1 shared in view 1", "mode 2 shared in view 1",
         "mode 1 shared in view 2", "mode 3 shared in view 2"]
    ∧ (initLearnableParams cfgC3 [1, 1, 1]).Wshape.getD 1 [] = [none, none, none]
    ∧ (initLearnableParams cfgC3 [1, 1, 1]).Wshape.getD 2 [] = [none, none, none] := by
  decide

/-- Counterexample for C1: on the single-mode single-view configuration
the forward output is [[1]], whereas the output demanded by the claim
(global bias 1 plus the same per-view contribution) would be [[2]]. -/
theorem C1_counterexample :
    mainBlock cfgC1 envC1 = .ok [[1]]
    ∧ specOutputsClaim cfgC1 envC1 1 = .ok [[2]]
    ∧ ([[1]] : Mat) ≠ [[2]] := by
  have h : mainBlock cfgC1 envC1
      = .ok (matSum [matMul (hadamardList [addRowBias (matMul [[1]] [[1]]) [0]])
          (colAsMat [[1]] 0)]) := rfl
  have hv : matSum [matMul (hadamardList [addRowBias (matMul [[1]] [[1]]) [0]])
      (colAsMat [[1]] 0)] = [[1]] := by
    norm_num [matSum, matMul, hadamardList, addRowBias, dotProd, matCol, numCols,
      colAsMat, List.range_succ]
  refine ⟨by rw [h, hv], ?_, by norm_num⟩
  rw [specOutputsClaim, h, hv]
  norm_num [addScalarMat]

/-- C1 amended: the forward output is the sum over views of the per-view
scalar contributions with no global-bias term; in particular, for a
single-mode, single-view configuration with view_rank 0 on the dense
path, the output equals matmul of the bias-added shared embedding with
Phi[:, 0]. -/
theorem C1_amended :
    (∀ (X W0v B Phiv : Mat) (co : Nat) (fo : Bool) (rt : String) (rg : ℚ)
        (wv : Nat → Nat → Option Mat),
      mainBlock ⟨[[1]], co, 0, fo, "dense", rt, rg⟩
          ⟨[.dense X], [W0v], wv,
           fun v m => if v = 1 ∧ m = 0 then some B else none, Phiv⟩
        = .ok (matMul (addRowBias (matMul X W0v) (B.getD 0 [])) (colAsMat Phiv 0)))
    ∧ (∀ (cfg : Config) (env : Env) (xwCache cs : List Mat),
        mapME (fun m => view_mode_embedding cfg env 0 m) (List.range cfg.n_modes)
          = .ok xwCache →
        viewContribs cfg env xwCache 0 cfg.view_list = .ok cs →
        mainBlock cfg env = .ok (matSum cs)) := by
  constructor
  · intro X W0v B Phiv co fo rt rg wv
    rfl
  · intro cfg env xwCache cs h1 h2
    simp [mainBlock, h1, h2]

/-- Witness for C1: the general sum-of-contributions form applied to the
concrete configuration cfgC1 with both hypotheses discharged by
computation. -/
theorem C1_witness :
    mainBlock cfgC1 envC1
      = .ok (matSum [matMul (hadamardList [addRowBias (matMul [[1]] [[1]]) [0]])
          (colAsMat [[1]] 0)]) :=
  C1_amended.2 cfgC1 envC1 [matMul [[1]] [[1]]]
    [matMul (hadamardList [addRowBias (matMul [[1]] [[1]]) [0]]) (colAsMat [[1]] 0)]
    rfl rfl

/-- The shared-table loop accumulates exactly the sum of the per-mode
norms, whatever the incoming carry. -/
theorem foldl_mode_acc (cfg : Config) (env : Env) (l : List Nat) :
    ∀ st : ℚ × ℚ, (l.foldl (regModeStep cfg env) st).1
      = st.1 + (l.map (fun m =>
          regularizer_func cfg.reg_type (matFlatten (env.W0.getD m [])))).sum := by
  induction l with
  | nil => intro st; simp
  | cons m rest ih =>
    intro st
    simp only [List.foldl_cons, List.map_cons, List.sum_cons]
    rw [ih]
    simp [regModeStep]
    ring

/-- When every visited pair has a materialized bias tensor, the
(view, mode) loop accumulates exactly the sum of the pairContrib values,
whatever the incoming carry. -/
theorem foldl_pairs_acc (cfg : Config) (env : Env) (l : List (Nat × Nat)) :
    (∀ pm ∈ l, env.Bias pm.1 (pm.2 - 1) ≠ none) →
    ∀ st : ℚ × ℚ, (l.foldl (regPairStep cfg env) st).1
      = st.1 + (l.map (pairContrib cfg env)).sum := by
  induction l with
  | nil => intro _ st; simp
  | cons pm rest ih =>
    intro h st
    obtain ⟨B, hB⟩ : ∃ B, env.Bias pm.1 (pm.2 - 1) = some B := by
      cases hb : env.Bias pm.1 (pm.2 - 1) with
      | none => exact absurd hb (h pm (List.mem_cons_self pm rest))
      | some B => exact ⟨B, rfl⟩
    have hrest : ∀ q ∈ rest, env.Bias q.1 (q.2 - 1) ≠ none :=
      fun q hq => h q (List.mem_cons_of_mem pm hq)
    simp only [List.foldl_cons, List.map_cons, List.sum_cons]
    by_cases hvr : cfg.view_rank > 0
    · cases hw : env.Wv pm.1 (pm.2 - 1) with
      | some W =>
        have hstep : regPairStep cfg env st pm
            = (st.1 + regularizer_func cfg.reg_type (matFlatten B)
                 + regularizer_func cfg.reg_type (matFlatten W),
               regularizer_func cfg.reg_type (matFlatten W)) := by
          simp [regPairStep, hB, hw, hvr]
        have hc : pairContrib cfg env pm
            = regularizer_func cfg.reg_type (matFlatten B)
              + regularizer_func cfg.reg_type (matFlatten W) := by
          simp [pairContrib, hB, hw, hvr]
        rw [hstep, ih hrest, hc]
        ring
      | none =>
        have hstep : regPairStep cfg env st pm
            = (st.1 + regularizer_func cfg.reg_type (matFlatten B)
                 + regularizer_func cfg.reg_type (matFlatten B),
               regularizer_func cfg.reg_type (matFlatten B)) := by
          simp [regPairStep, hB, hw, hvr]
        have hc : pairContrib cfg env pm
            = regularizer_func cfg.reg_type (matFlatten B)
              + regularizer_func cfg.reg_type (matFlatten B) := by
          simp [pairContrib, hB, hw, hvr]
        rw [hstep, ih hrest, hc]
        ring
    · have hstep : regPairStep cfg env st pm
          = (st.1 + regularizer_func cfg.reg_type (matFlatten B),
             regularizer_func cfg.reg_type (matFlatten B)) := by
        simp [regPairStep, hB, hvr]
      have hc : pairContrib cfg env pm
          = regularizer_func cfg.reg_type (matFlatten B) := by
        simp [pairContrib, hB, hvr]
      rw [hstep, ih hrest, hc]
      ring

/-- Counterexample for C4: in configuration cfgC4 the embedding-norm
computation fails (the view table never materialized), and the
accumulated value is 10 = mode norm 0 + bias norm 5 counted twice + Phi
norm 0, while a failure contributing zero would give the materialized-sum
5. -/
theorem C4_counterexample :
    init_regular cfgC4 envC4 = 10
    ∧ specRegularSum cfgC4 envC4 = 5
    ∧ (10 : ℚ) ≠ 5 := by
  refine ⟨?_, ?_, by norm_num⟩
  · norm_num [init_regular, regModeStep, regPairStep, viewPairs, viewPairsAux, pySet,
      regularizer_func, sumAbs, qabs, matFlatten, Config.n_modes, cfgC4, envC4,
      List.range_succ]
  · norm_num [specRegularSum, viewPairs, viewPairsAux, pySet, regularizer_func,
      sumAbs, qabs, matFlatten, Config.n_modes, cfgC4, envC4, List.range_succ]

/-- C4 amended: for a pair whose bias materialized but whose view-table
norm computation fails (tensor absent, view_rank > 0), the unconditional
accumulation after the caught exception re-adds the stale bias norm, so
the pair contributes the bias norm twice instead of once plus zero. -/
theorem C4_amended (cfg : Config) (env : Env) (st : ℚ × ℚ) (pm : Nat × Nat) (B : Mat)
    (hB : env.Bias pm.1 (pm.2 - 1) = some B)
    (hW : env.Wv pm.1 (pm.2 - 1) = none)
    (hvr : 0 < cfg.view_rank) :
    regPairStep cfg env st pm
      = (st.1 + 2 * regularizer_func cfg.reg_type (matFlatten B),
         regularizer_func cfg.reg_type (matFlatten B)) := by
  simp only [regPairStep, hB, hW, gt_iff_lt, if_pos hvr, Prod.mk.injEq]
  refine ⟨by ring, ?_⟩
  trivial

/-- Witness for C4: the double-counting step evaluated on cfgC4, where the
bias norm is 5 and the accumulator moves from 0 to 10. -/
theorem C4_witness : regPairStep cfgC4 envC4 (0, 0) (1, 1) = (10, 5) := by
  have h := C4_amended cfgC4 envC4 (0, 0) (1, 1) [[5]] rfl rfl (by decide)
  rw [h]
  norm_num [regularizer_func, cfgC4, sumAbs, qabs, matFlatten]

/-- Counterexample for C5: in configuration cfgC5 the accumulated value is
9 = mode norm 2 + bias norm 3 + whole-Phi norm 4, while the sum demanded
by the claim (which also counts the per-column Phi norms) is 13. -/
theorem C5_counterexample :
    init_regular cfgC5 envC5 = 9
    ∧ specRegularSumWithCols cfgC5 envC5 = 13
    ∧ (9 : ℚ) ≠ 13 := by
  refine ⟨?_, ?_, by norm_num⟩
  · norm_num [init_regular, regModeStep, regPairStep, viewPairs, viewPairsAux, pySet,
      regularizer_func, sumAbs, qabs, matFlatten, Config.n_modes, cfgC5, envC5,
      List.range_succ]
  · norm_num [specRegularSumWithCols, specRegularSum, viewPairs, viewPairsAux, pySet,
      regularizer_func, sumAbs, qabs, matFlatten, matCol, Config.n_modes,
      Config.n_views, cfgC5, envC5, List.range_succ]

/-- C5 amended: the accumulated regularization is the sum of the
configured norm over every shared mode table, plus for each (view, mode)
pair its pairContrib (the bias norm, plus for view_rank > 0 either the
view-table norm if that table materialized or the bias norm again if it
did not), plus the whole mixing matrix norm; the per-column Phi norms are
not included. -/
theorem C5_amended (cfg : Config) (env : Env)
    (h : ∀ pm ∈ viewPairs cfg, env.Bias pm.1 (pm.2 - 1) ≠ none) :
    init_regular cfg env
      = ((List.range cfg.n_modes).map
            (fun m => regularizer_func cfg.reg_type (matFlatten (env.W0.getD m [])))).sum
        + ((viewPairs cfg).map (pairContrib cfg env)).sum
        + regularizer_func cfg.reg_type (matFlatten env.Phi) := by
  unfold init_regular
  rw [foldl_pairs_acc cfg env (viewPairs cfg) h, foldl_mode_acc cfg env]
  norm_num

/-- Witness for C5: the amended accumulation formula applied to the
concrete configuration cfgC5, the bias hypothesis discharged by
computation. -/
theorem C5_witness :
    init_regular cfgC5 envC5
      = ((List.range cfgC5.n_modes).map
            (fun m => regularizer_func cfgC5.reg_type (matFlatten (envC5.W0.getD m [])))).sum
        + ((viewPairs cfgC5).map (pairContrib cfgC5 envC5)).sum
        + regularizer_func cfgC5.reg_type (matFlatten envC5.Phi) :=
  C5_amended cfgC5 envC5 (by decide)

/-- Folding set-insertion over any list preserves Nodup of the
accumulator. -/
theorem pySet_nodup_aux (l : List Nat) :
    ∀ acc : List Nat, acc.Nodup →
      (l.foldl (fun acc x => if x ∈ acc then acc else acc ++ [x]) acc).Nodup := by
  induction l with
  | nil => intro acc h; exact h
  | cons x rest ih =>
    intro acc h
    simp only [List.foldl_cons]
    by_cases hx : x ∈ acc
    · rw [if_pos hx]; exact ih acc h
    · rw [if_neg hx]
      refine ih _ ?_
      simp [List.nodup_append, h, hx]

/-- The model of the Python set iteration has no duplicates. -/
theorem pySet_nodup (l : List Nat) : (pySet l).Nodup := by
  unfold pySet
  exact pySet_nodup_aux l [] List.nodup_nil

/-- Every pair emitted by the view loop starting at index k has view
component above k. -/
theorem viewPairsAux_fst_gt (l : List (List Nat)) :
    ∀ k v m, (v, m) ∈ viewPairsAux k l → k < v := by
  induction l with
  | nil => intro k v m h; simp [viewPairsAux] at h
  | cons ms rest ih =>
    intro k v m h
    rw [viewPairsAux] at h
    rcases List.mem_append.mp h with h1 | h2
    · obtain ⟨m', _, he⟩ := List.mem_map.mp h1
      cases he
      omega
    · have := ih (k + 1) v m h2
      omega

/-- A list without duplicates counts any element at most once. -/
theorem count_le_one_of_nodup {α : Type} [BEq α] [LawfulBEq α] :
    ∀ l : List α, l.Nodup → ∀ a : α, l.count a ≤ 1 := by
  intro l
  induction l with
  | nil => intro _ a; simp
  | cons x xs ih =>
    intro h a
    have hx : x ∉ xs := (List.nodup_cons.mp h).1
    have hxs : xs.Nodup := (List.nodup_cons.mp h).2
    rw [List.count_cons]
    by_cases ha : x = a
    · subst ha
      rw [List.count_eq_zero.mpr hx]
      simp
    · have hb : (x == a) = false := by simp [beq_eq_false_iff_ne, ha]
      rw [hb]
      simpa using ih hxs a

/-- The per-view loops visit any given (view, mode) pair at most once:
within one view the iteration runs over set(modes), and across views the
view component differs. -/
theorem count_viewPairsAux (l : List (List Nat)) :
    ∀ k v m, ((viewPairsAux k l).count (v, m)) ≤ 1 := by
  induction l with
  | nil => intro k v m; simp [viewPairsAux]
  | cons ms rest ih =>
    intro k v m
    rw [viewPairsAux, List.count_append]
    by_cases hv : v = k + 1
    · subst hv
      have h1 : (viewPairsAux (k + 1) rest).count (k + 1, m) = 0 :=
        List.count_eq_zero.mpr (fun hmem =>
          absurd (viewPairsAux_fst_gt rest (k + 1) (k + 1) m hmem) (lt_irrefl _))
      have h2 : ((pySet ms).map (fun m => (k + 1, m))).count (k + 1, m) ≤ 1 :=
        count_le_one_of_nodup _
          ((pySet_nodup ms).map (fun a b hab => by simpa using hab)) (k + 1, m)
      omega
    · have h1 : ((pySet ms).map (fun m => (k + 1, m))).count (v, m) = 0 := by
        refine List.count_eq_zero.mpr (fun hmem => ?_)
        obtain ⟨m', _, he⟩ := List.mem_map.mp hmem
        cases he
        exact hv rfl
      have h2 := ih (k + 1) v m
      omega

/-- With view_rank 0 and every bias materialized, the per-view assembly
loop is the pure fold that writes the bias-added cached embedding of mode
m into slot m-1, once per occurrence. -/
theorem viewFactors_vr0 (cfg : Config) (env : Env) (xwCache : List Mat) (v : Nat)
    (hvr : cfg.view_rank = 0) :
    ∀ (modes : List Nat) (xwList : List (Option Mat)),
      (∀ m ∈ modes, env.Bias v (m - 1) ≠ none) →
      viewFactorsFold cfg env xwCache v modes xwList
        = .ok (modes.foldl (fun l m =>
            l.set (m - 1) (some (addRowBias (xwCache.getD (m - 1) [])
              (((env.Bias v (m - 1)).getD []).getD 0 [])))) xwList) := by
  intro modes
  induction modes with
  | nil => intro xwList _; rfl
  | cons m rest ih =>
    intro xwList h
    obtain ⟨B, hB⟩ : ∃ B, env.Bias v (m - 1) = some B := by
      cases hb : env.Bias v (m - 1) with
      | none => exact absurd hb (h m (List.mem_cons_self m rest))
      | some B => exact ⟨B, rfl⟩
    simp only [viewFactorsFold, hvr, gt_iff_lt, Nat.lt_irrefl, if_false, hB,
      List.foldl_cons]
    rw [ih _ (fun q hq => h q (List.mem_cons_of_mem m hq))]
    simp [hB]

/-- Writing through a list of slot indices preserves the list length. -/
theorem setFold_length (f : Nat → Option Mat) (modes : List Nat) :
    ∀ init : List (Option Mat),
      (modes.foldl (fun l m => l.set (m - 1) (f (m - 1))) init).length
        = init.length := by
  induction modes with
  | nil => intro init; rfl
  | cons m rest ih =>
    intro init
    simp only [List.foldl_cons]
    rw [ih]
    simp

/-- Slot k of the fold holds the written value exactly when some
occurrence of mode k+1 is in the list: later duplicates overwrite the
same slot with the same value. -/
theorem setFold_get (f : Nat → Option Mat) (modes : List Nat) :
    ∀ init : List (Option Mat), (∀ m ∈ modes, 1 ≤ m) → ∀ k, k < init.length →
      (modes.foldl (fun l m => l.set (m - 1) (f (m - 1))) init)[k]?
        = if k + 1 ∈ modes then some (f k) else init[k]? := by
  induction modes with
  | nil => intro init _ k hk; simp
  | cons m rest ih =>
    intro init h k hk
    simp only [List.foldl_cons]
    have h1 : 1 ≤ m := h m (List.mem_cons_self m rest)
    have hlen : k < (init.set (m - 1) (f (m - 1))).length := by simpa using hk
    rw [ih (init.set (m - 1) (f (m - 1)))
      (fun q hq => h q (List.mem_cons_of_mem m hq)) k hlen]
    by_cases hmem : k + 1 ∈ rest
    · simp [hmem]
    · simp only [hmem, if_false]
      rw [List.getElem?_set]
      by_cases he : m - 1 = k
      · have hm : m = k + 1 := by omega
        simp [he, hk, hm]
      · have hne : ¬ (k + 1 = m) := by omega
        simp [he, hne, hmem]

/-- The fold over a duplicated mode list collapses to one written slot per
distinct mode id. -/
theorem setFold_collapsed (f : Nat → Option Mat) (modes : List Nat) (n : Nat)
    (h : ∀ m ∈ modes, 1 ≤ m) :
    modes.foldl (fun l m => l.set (m - 1) (f (m - 1))) (List.replicate n none)
      = (List.range n).map (fun k => if k + 1 ∈ modes then f k else none) := by
  apply List.ext_getElem?
  intro k
  by_cases hk : k < n
  · rw [setFold_get f modes (List.replicate n none) h k (by simpa using hk)]
    rw [List.getElem?_map, List.getElem?_range hk, List.getElem?_replicate]
    by_cases hm : k + 1 ∈ modes <;> simp [hm, hk]
  · have hlen1 : (modes.foldl (fun l m => l.set (m - 1) (f (m - 1)))
        (List.replicate n none)).length = n := by
      rw [setFold_length]; simp
    have hlen2 : ((List.range n).map
        (fun k => if k + 1 ∈ modes then f k else none)).length = n := by simp
    rw [List.getElem?_eq_none (by omega), List.getElem?_eq_none (by omega)]

/-- C10: for a view whose mode tuple repeats a mode id, duplicates are
collapsed: the creation and regularization loops visit any (view, mode)
pair at most once (first conjunct, over the viewPairs sequence both loops
iterate), and the assembly loop produces exactly one bias-added embedding
factor per distinct mode, the repeated id overwriting its own slot
(second conjunct, on the view_rank 0 path where the view table lookup is
not reached). -/
theorem C10_duplicates_collapsed (cfg : Config) (env : Env) (xwCache : List Mat)
    (i : Nat) (modes : List Nat)
    (hv : cfg.view_list[i]? = some modes)
    (hdup : ¬ modes.Nodup)
    (hm : ∀ m ∈ modes, 1 ≤ m)
    (hvr : cfg.view_rank = 0)
    (hb : ∀ m ∈ modes, env.Bias (i + 1) (m - 1) ≠ none) :
    (∀ m : Nat, (viewPairs cfg).count (i + 1, m) ≤ 1)
    ∧ viewFactorsFold cfg env xwCache (i + 1) modes (List.replicate cfg.n_modes none)
        = .ok ((List.range cfg.n_modes).map (fun k =>
            if k + 1 ∈ modes then
              some (addRowBias (xwCache.getD k [])
                (((env.Bias (i + 1) k).getD []).getD 0 []))
            else none)) := by
  refine ⟨fun m => count_viewPairsAux cfg.view_list 0 (i + 1) m, ?_⟩
  rw [viewFactors_vr0 cfg env xwCache (i + 1) hvr modes
    (List.replicate cfg.n_modes none) hb]
  congr 1
  exact setFold_collapsed (fun k => some (addRowBias (xwCache.getD k [])
    (((env.Bias (i + 1) k).getD []).getD 0 []))) modes cfg.n_modes hm

/-- Witness for C10: the duplicated view (1, 1, 2) of cfgC10 with all
hypotheses discharged by computation. -/
theorem C10_witness :
    (viewPairs cfgC10).count (1, 1) ≤ 1
    ∧ viewFactorsFold cfgC10 envC10 [[[7]], [[9]]] 1 [1, 1, 2]
        (List.replicate cfgC10.n_modes none)
      = .ok ((List.range cfgC10.n_modes).map (fun k =>
          if k + 1 ∈ [1, 1, 2] then
            some (addRowBias ([[[7]], [[9]]].getD k [])
              (((envC10.Bias 1 k).getD []).getD 0 []))
          else none)) := by
  have h := C10_duplicates_collapsed cfgC10 envC10 [[[7]], [[9]]] 0 [1, 1, 2]
    rfl (by decide) (by decide) rfl (by decide)
  exact ⟨h.1 1, h.2⟩

end SFM
